import Mathlib

/-!
Verification of the RQC adapter plugin's submission-data assembly and
consent-handling logic against its natural-language specification.

The Python sources (`submission_data_retrieval.py`, `views.py`) are embedded
shallowly: Python strings become `List Char`, nullable columns become
`Option`, Django querysets over related objects become explicit list-valued
fields on the owning record, and code that can raise an uncaught exception
returns `Option`.  Timestamps are abstract `Date` values carrying a year
(needed by the opting view's `date_accepted__year` filter) and an
intra-year ordinal.
-/

/-- Python strings are modelled as lists of characters so that slicing
(`s[:n]`) becomes `List.take`. -/
abbrev Str := List Char

/-- `MAX_SINGLE_LINE_STRING_LENGTH` from `submission_data_retrieval.py`. -/
def MAX_SINGLE_LINE_STRING_LENGTH : Nat := 2000

/-- `MAX_MULTI_LINE_STRING_LENGTH` from `submission_data_retrieval.py`
(declared there but, notably, never used). -/
def MAX_MULTI_LINE_STRING_LENGTH : Nat := 200000

/-- `MAX_LIST_LENGTH` from `submission_data_retrieval.py`. -/
def MAX_LIST_LENGTH : Nat := 20

/-- An abstract timezone-aware timestamp: a year plus an ordinal within
the year.  The year component is what `date_accepted__year` inspects. -/
structure Date where
  year : Nat
  t : Nat
deriving DecidableEq

/-- Lexicographic order on dates, as a proposition. -/
def dateLeP (a b : Date) : Prop :=
  a.year < b.year ∨ (a.year = b.year ∧ a.t ≤ b.t)

instance : DecidableRel dateLeP := fun a b => by
  unfold dateLeP; infer_instance

/-- Order on nullable date columns (SQL `ORDER BY` with NULLs first). -/
def optDateLeP : Option Date → Option Date → Prop
  | none, _ => True
  | some _, none => False
  | some a, some b => dateLeP a b

instance : DecidableRel optDateLeP := fun a b => by
  cases a <;> cases b <;> unfold optDateLeP <;> infer_instance

/-- A Janeway `Account` (author, editor or reviewer).  `orcid` is nullable;
`first_name`/`last_name` may be empty, which Python treats as falsy. -/
structure Account where
  id : Nat
  email : Str
  first_name : Str
  last_name : Str
  orcid : Option Str
deriving DecidableEq

/-- `RQCReviewerOptingDecision.OptingChoices` from `models.py`. -/
inductive OptingStatus
  | optIn
  | optOut
  | undefinedChoice
deriving DecidableEq

/-- The journal-scoped `RQCReviewerOptingDecision` record. -/
structure OptingDecisionRecord where
  opting_status : OptingStatus
  opting_date : Date
deriving DecidableEq

/-- The per-assignment `RQCReviewerOptingDecisionForReviewAssignment`
snapshot: consent captured for one review assignment plus the flag marking
whether this assignment's data has already been transmitted. -/
structure OptingSnapshot where
  opting_status : OptingStatus
  sent_to_rqc : Bool
  decision_record : Option OptingDecisionRecord
deriving DecidableEq

/-- A Janeway `ReviewAssignment`.  `snapshot` is the reverse one-to-one
`rqcrevieweroptingdecisionforreviewassignment` relation (absent when no
snapshot row exists); `review_round` is nullable (the round may have been
deleted); `form_answers` are the review-form answer texts. -/
structure ReviewAssignment where
  reviewer : Account
  date_requested : Option Date
  date_accepted : Option Date
  date_declined : Option Date
  date_due : Option Date
  date_complete : Option Date
  is_complete : Bool
  review_round : Option Nat
  form_answers : List Str
  decision : Str
  snapshot : Option OptingSnapshot
deriving DecidableEq

/-- A Janeway `EditorAssignment`: `editor_type` distinguishes the chief
role (the string value matched against in the source) from section
editors; `assigned` drives the `order_by('-assigned')`. -/
structure EditorAssignment where
  editor : Account
  editor_type : Str
  assigned : Date
deriving DecidableEq

/-- A Janeway `DecisionDraft`: both editor references are nullable. -/
structure DecisionDraft where
  section_editor : Option Account
  editor : Option Account
deriving DecidableEq

/-- A Janeway `FrozenAuthor` row: the `author` foreign key (account id)
and the 0-based display `order`. -/
structure FrozenAuthor where
  author : Nat
  order : Nat
deriving DecidableEq

/-- One entry of the assembled `edassgmt_set`, as built by
`get_editor_info`. -/
structure EditorInfo where
  email : Str
  firstname : Str
  lastname : Str
  orcid_id : Option Str
  level : Nat
deriving DecidableEq

/-- The `RQCCall` record for an article: the editor list stored on the
first successful submission. -/
structure RQCCallRec where
  editor_assignments : List EditorInfo
deriving DecidableEq

/-- Modelled from the spec: `RQCJournalSalt` (models.py is not in src) is
a per-journal secret created lazily on first use; since no claim depends
on its creation race, the journal is modelled with its salt already
resolved by get-or-create. -/
structure Journal where
  salt : Str
deriving DecidableEq

/-- An `Article` together with the database state the assembly functions
query: its related editor assignments, decision drafts, frozen authors,
review assignments, and the per-article `RQCCall` row when one exists. -/
structure Article where
  pk : Nat
  title : Str
  date_submitted : Date
  correspondence_author : Account
  frozenauthor_set : List FrozenAuthor
  editorassignment_set : List EditorAssignment
  decisiondraft_set : List DecisionDraft
  reviewassignment_set : List ReviewAssignment
  call_record : Option RQCCallRec
  editorial_decision : Str
deriving DecidableEq

/-- Modelled from the spec: `convert_date_to_rqc_format` from `utils.py`
(not in src) renders a UTC datetime for the RQC API; it is modelled as the
identity on abstract dates since no claim depends on the textual format. -/
def convert_date_to_rqc_format (d : Date) : Date := d

/-- Modelled from the spec: `convert_review_decision_to_rqc_format` from
`utils.py` (not in src) maps a suggested review decision into the remote
vocabulary; it is modelled as the identity on an abstract decision label
since no claim depends on the mapping. -/
def convert_review_decision_to_rqc_format (d : Str) : Str := d

/-- Modelled from the spec: `get_editorial_decision` from `utils.py` (not
in src) derives the decision field from the most recent editorial action;
it is modelled as a stored attribute of the article. -/
def get_editorial_decision (article : Article) : Str :=
  article.editorial_decision

/-- The fixed placeholder domain of pseudonymous reviewer addresses
(asserted by the repository's tests). -/
def RQC_PSEUDO_DOMAIN : Str := ("@example.edu").data

/-- A deterministic mixer standing in for the salted digest. -/
def mixChars (s : Str) : Nat :=
  s.foldl (fun h c => (h * 31 + c.toNat) % 1000000007) 7

/-- Modelled from the spec: `create_pseudo_address` from `utils.py` (not
in src) derives a stable pseudo-identity — a deterministic, salted, one-way
digest of the real address rendered as an email-shaped string with the
fixed placeholder domain suffix.  The digest itself is abstracted by a
simple deterministic mixer since no claim depends on its collision
behaviour. -/
def create_pseudo_address (email : Str) (salt : Str) : Str :=
  (Nat.repr (mixChars (salt ++ email))).data ++ RQC_PSEUDO_DOMAIN

/-- `get_editor_info` from `submission_data_retrieval.py`: one editor
entry, every single-line field truncated, empty-string fallbacks mirroring
Python truthiness. -/
def get_editor_info (editor : Account) (level : Nat) : EditorInfo :=
  { email := editor.email.take MAX_SINGLE_LINE_STRING_LENGTH
    firstname :=
      if editor.first_name.isEmpty then []
      else editor.first_name.take MAX_SINGLE_LINE_STRING_LENGTH
    lastname :=
      if editor.last_name.isEmpty then []
      else editor.last_name.take MAX_SINGLE_LINE_STRING_LENGTH
    orcid_id :=
      match editor.orcid with
      | some o => if o.isEmpty then none else some (o.take MAX_SINGLE_LINE_STRING_LENGTH)
      | none => none
    level := level }

/-- The dedup key used by `get_editors_info`: the editor's (truncated)
email together with the level. -/
def infoKey (e : EditorInfo) : Str × Nat := (e.email, e.level)

/-- The loop state of `get_editors_info`: the accumulated entry list, the
`seen` key set (kept in insertion order), and the
`has_level_one_editor` flag. -/
structure EdState where
  edassgmt_set : List EditorInfo
  seen : List (Str × Nat)
  has_level_one_editor : Bool
deriving DecidableEq

/-- `if key not in seen: seen.add(key); edassgmt_set.append(info)`. -/
def addIfUnseen (st : EdState) (info : EditorInfo) : EdState :=
  if infoKey info ∈ st.seen then st
  else { st with
          edassgmt_set := st.edassgmt_set ++ [info]
          seen := st.seen ++ [infoKey info] }

/-- The string the source compares `editor_type` against. -/
def chiefEditorType : Str := ("editor").data

/-- One iteration of the editor-assignment loop of `get_editors_info`:
a chief (`editor_type == 'editor'`) contributes a level-3 entry, anything
else a level-1 entry and sets `has_level_one_editor` (before the dedup
check, as in the source). -/
def editorAssignmentStep (st : EdState) (ea : EditorAssignment) : EdState :=
  if ea.editor_type = chiefEditorType then
    addIfUnseen st (get_editor_info ea.editor 3)
  else
    { addIfUnseen st (get_editor_info ea.editor 1) with has_level_one_editor := true }

/-- The section-editor half of the decision-draft loop: append a level-1
entry and set the flag, but only when the key is unseen. -/
def addSectionDraft (st : EdState) (info : EditorInfo) : EdState :=
  if infoKey info ∈ st.seen then st
  else { edassgmt_set := st.edassgmt_set ++ [info]
         seen := st.seen ++ [infoKey info]
         has_level_one_editor := true }

/-- One iteration of the decision-draft loop of `get_editors_info`:
the draft's section editor (if any) contributes a level-1 entry, the
draft's chief editor (if any) a level-3 entry. -/
def decisionDraftStep (st : EdState) (draft : DecisionDraft) : EdState :=
  let st1 :=
    match draft.section_editor with
    | some se => addSectionDraft st (get_editor_info se 1)
    | none => st
  match draft.editor with
  | some ed => addIfUnseen st1 (get_editor_info ed 3)
  | none => st1

/-- Descending order on `assigned`, for `order_by('-assigned')`. -/
def eaAssignedDesc (a b : EditorAssignment) : Prop := dateLeP b.assigned a.assigned

instance : DecidableRel eaAssignedDesc := fun a b => by
  unfold eaAssignedDesc; infer_instance

/-- Ascending order on the entry level, for `sort(key=lambda x: x['level'])`. -/
def edLevelLe (a b : EditorInfo) : Prop := a.level ≤ b.level

instance : DecidableRel edLevelLe := fun a b => by
  unfold edLevelLe; infer_instance

instance : IsTotal EditorInfo edLevelLe :=
  ⟨fun a b => Nat.le_total a.level b.level⟩

instance : IsTrans EditorInfo edLevelLe :=
  ⟨fun _ _ _ hab hbc => Nat.le_trans hab hbc⟩

/-- The two loops of `get_editors_info` run over the sorted editor
assignments and then the decision drafts. -/
def computed_editor_state (article : Article) : EdState :=
  (article.decisiondraft_set.foldl decisionDraftStep
    ((List.insertionSort eaAssignedDesc article.editorassignment_set).foldl
      editorAssignmentStep ⟨[], [], false⟩))

/-- `edassgmt_set[0]['level'] = 1`. -/
def promoteFirst : List EditorInfo → List EditorInfo
  | [] => []
  | e :: rest => { e with level := 1 } :: rest

/-- The freshly computed editor list of `get_editors_info` (no `RQCCall`
row): the two loops, followed by the forced level-1 promotion when no
level-1 entry was produced for a nonempty list. -/
def computed_edassgmt_set (article : Article) : List EditorInfo :=
  if (computed_editor_state article).has_level_one_editor = false ∧
      (computed_editor_state article).edassgmt_set ≠ [] then
    promoteFirst (computed_editor_state article).edassgmt_set
  else
    (computed_editor_state article).edassgmt_set

/-- `get_editors_info` from `submission_data_retrieval.py`: return the
stored `RQCCall` list verbatim when one exists, otherwise compute, sort
ascending by level, and truncate to 20. -/
def get_editors_info (article : Article) : List EditorInfo :=
  match article.call_record with
  | some call_record => call_record.editor_assignments
  | none =>
      (List.insertionSort edLevelLe (computed_edassgmt_set article)).take
        MAX_LIST_LENGTH

/-- `has_opted_in` from `submission_data_retrieval.py`: look up the
per-assignment snapshot (the `AttributeError` raised by `.first()`
returning `None` is caught and treated as no status), then compare
against the opt-in choice.  The function is total. -/
def has_opted_in (review_assignment : ReviewAssignment) : Bool :=
  match review_assignment.snapshot with
  | some snap => snap.opting_status = OptingStatus.optIn
  | none => false

/-- One entry of the assembled `review_set`'s `reviewer` field. -/
structure ReviewerData where
  email : Str
  firstname : Str
  lastname : Str
  orcid_id : Option Str
deriving DecidableEq

/-- One entry of the assembled `review_set`. -/
structure ReviewData where
  visible_id : Str
  invited : Option Date
  agreed : Option Date
  expected : Option Date
  submitted : Option Date
  text : Str
  is_html : Bool
  suggested_decision : Str
  reviewer : ReviewerData
  attachment_set : List Unit
deriving DecidableEq

/-- `get_reviewer_info` from `submission_data_retrieval.py`: real
(truncated) identity for an opted-in reviewer, otherwise the salted
pseudo address with blanked name and ORCID fields. -/
def get_reviewer_info (reviewer : Account) (reviewer_has_opted_in : Bool)
    (journal : Journal) : ReviewerData :=
  if reviewer_has_opted_in then
    { email := reviewer.email.take MAX_SINGLE_LINE_STRING_LENGTH
      firstname :=
        if reviewer.first_name.isEmpty then []
        else reviewer.first_name.take MAX_SINGLE_LINE_STRING_LENGTH
      lastname :=
        if reviewer.last_name.isEmpty then []
        else reviewer.last_name.take MAX_SINGLE_LINE_STRING_LENGTH
      orcid_id :=
        match reviewer.orcid with
        | some o => if o.isEmpty then none else some (o.take MAX_SINGLE_LINE_STRING_LENGTH)
        | none => none }
  else
    { email := create_pseudo_address reviewer.email journal.salt
      firstname := []
      lastname := []
      orcid_id := none }

/-- The `sent_to_rqc` flag seen through the nullable snapshot join:
an assignment without a snapshot row never satisfies
`rqcrevieweroptingdecisionforreviewassignment__sent_to_rqc=True`. -/
def snapshotSent (ra : ReviewAssignment) : Bool :=
  match ra.snapshot with
  | some snap => snap.sent_to_rqc
  | none => false

/-- The queryset filter of `get_reviews_info`:
`(sent_to_rqc=True | review_round is not null) & (date_accepted is not
null | (date_declined is not null & sent_to_rqc=True))`. -/
def reviewAssignmentQualifies (ra : ReviewAssignment) : Bool :=
  (snapshotSent ra || ra.review_round.isSome) &&
    (ra.date_accepted.isSome || (ra.date_declined.isSome && snapshotSent ra))

/-- Ascending order on `date_requested`, for `order_by("date_requested")`. -/
def raRequestedLe (a b : ReviewAssignment) : Prop :=
  optDateLeP a.date_requested b.date_requested

instance : DecidableRel raRequestedLe := fun a b => by
  unfold raRequestedLe; infer_instance

instance : IsTotal ReviewAssignment raRequestedLe := by
  constructor
  intro a b
  unfold raRequestedLe
  cases ha : a.date_requested <;> cases hb : b.date_requested <;>
    simp only [optDateLeP] <;> try simp
  unfold dateLeP
  omega

instance : IsTrans ReviewAssignment raRequestedLe := by
  constructor
  intro a b c hab hbc
  unfold raRequestedLe at *
  cases ha : a.date_requested <;> cases hb : b.date_requested <;>
      cases hc : c.date_requested <;>
    simp only [ha, hb, hc, optDateLeP] at * <;> try trivial
  · unfold dateLeP at *
    omega

/-- The filtered, ordered queryset of review assignments considered by
`get_reviews_info`. -/
def selected_review_assignments (article : Article) : List ReviewAssignment :=
  List.insertionSort raRequestedLe
    (article.reviewassignment_set.filter reviewAssignmentQualifies)

/-- `x if x else None` on a nullable date column, through the RQC date
conversion. -/
def convertOptDate : Option Date → Option Date
  | some d => some (convert_date_to_rqc_format d)
  | none => none

/-- `" ".join(review_assignment_answers)`. -/
def joinAnswers (answers : List Str) : Str :=
  List.intercalate ([' ']) answers

/-- The body of the loop of `get_reviews_info`: the `review_data`
dictionary built for one review assignment under the running
`review_num`.  Note the source truncates the joined review text with
`MAX_SINGLE_LINE_STRING_LENGTH`, not `MAX_MULTI_LINE_STRING_LENGTH`. -/
def make_review_data (review_num : Nat) (journal : Journal)
    (review_assignment : ReviewAssignment) : ReviewData :=
  let review_text := joinAnswers review_assignment.form_answers
  let reviewer_has_opted_in := has_opted_in review_assignment
  { visible_id := (Nat.repr review_num).data
    invited := convertOptDate review_assignment.date_requested
    agreed := convertOptDate review_assignment.date_accepted
    expected := convertOptDate review_assignment.date_due
    submitted := convertOptDate review_assignment.date_complete
    text :=
      if reviewer_has_opted_in then review_text.take MAX_SINGLE_LINE_STRING_LENGTH
      else []
    is_html := true
    suggested_decision :=
      convert_review_decision_to_rqc_format review_assignment.decision
    reviewer := get_reviewer_info review_assignment.reviewer reviewer_has_opted_in journal
    attachment_set := [] }

/-- The accumulation loop of `get_reviews_info`, carrying `review_num`
(starting at 1). -/
def build_review_set (journal : Journal) : Nat → List ReviewAssignment → List ReviewData
  | _, [] => []
  | review_num, ra :: rest =>
      make_review_data review_num journal ra ::
        build_review_set journal (review_num + 1) rest

/-- `get_reviews_info` from `submission_data_retrieval.py`: build one
entry per selected assignment in invitation order, then truncate to 20
(the overflow is only logged). -/
def get_reviews_info (article : Article) (journal : Journal) : List ReviewData :=
  (build_review_set journal 1 (selected_review_assignments article)).take
    MAX_LIST_LENGTH

/-- One entry of the assembled `author_set`. -/
structure AuthorInfo where
  email : Str
  firstname : Str
  lastname : Str
  orcid_id : Option Str
  order_number : Nat
deriving DecidableEq

/-- `get_authors_info` from `submission_data_retrieval.py`:
`frozenauthor_set.filter(author=author).first()` yields `None` when the
correspondence author has no frozen-author row, in which case
`author_order.order` raises — modelled as `none`. -/
def get_authors_info (article : Article) : Option (List AuthorInfo) :=
  let author := article.correspondence_author
  match article.frozenauthor_set.find? (fun fa => fa.author == author.id) with
  | none => none
  | some author_order =>
      some [{ email := author.email.take MAX_SINGLE_LINE_STRING_LENGTH
              firstname :=
                if author.first_name.isEmpty then []
                else author.first_name.take MAX_SINGLE_LINE_STRING_LENGTH
              lastname :=
                if author.last_name.isEmpty then []
                else author.last_name.take MAX_SINGLE_LINE_STRING_LENGTH
              orcid_id :=
                match author.orcid with
                | some o => if o.isEmpty then none else some (o.take MAX_SINGLE_LINE_STRING_LENGTH)
                | none => none
              order_number := author_order.order + 1 }]

/-- The assembled submission document of `fetch_post_data`. -/
structure SubmissionData where
  interactive_user : Str
  mhs_submissionpage : Str
  title : Str
  external_uid : Str
  visible_uid : Str
  submitted : Date
  author_set : List AuthorInfo
  edassgmt_set : List EditorInfo
  review_set : List ReviewData
  decision : Str
deriving DecidableEq

/-- `fetch_post_data` from `submission_data_retrieval.py`.  The author
step can raise (see `get_authors_info`), so assembly returns `Option`. -/
def fetch_post_data (article : Article) (journal : Journal)
    (mhs_submissionpage : Str) (is_interactive : Bool)
    (user : Option Account) : Option SubmissionData :=
  let interactive_user_email : Str :=
    match user with
    | some u => if is_interactive && !u.email.isEmpty then u.email else []
    | none => []
  match get_authors_info article with
  | none => none
  | some author_set =>
      some { interactive_user := interactive_user_email
             mhs_submissionpage :=
               if interactive_user_email.isEmpty then [] else mhs_submissionpage
             title := article.title.take MAX_SINGLE_LINE_STRING_LENGTH
             external_uid := (Nat.repr article.pk).data
             visible_uid := (Nat.repr article.pk).data
             submitted := convert_date_to_rqc_format article.date_submitted
             author_set := author_set
             edassgmt_set := get_editors_info article
             review_set := get_reviews_info article journal
             decision := get_editorial_decision article }

/-- The outcome code carried in `response['http_status_code']`.
Modelled from the spec: the sentinel values of `RQCErrorCodes` in
`rqc_calls.py` (not in src) — the three transport-error codes and the
unknown-error code — are distinct from every HTTP status and are modelled
as separate constructors. -/
inductive RQCStatusCode
  | http (code : Nat)
  | connectionError
  | timeout
  | requestError
  | unknownError
deriving DecidableEq

/-- A persisted `RQCDelayedCall` retry work item, as created by the
explicit submission view. -/
structure RQCDelayedCall where
  remaining_tries : Nat
  failure_reason : RQCStatusCode
  last_attempt_at : Date
deriving DecidableEq

/-- The failure branch of `submit_article_for_grading` in `views.py`:
the `match` on the response code, reduced to the `RQCDelayedCall` it
creates (if any).  The 400/403/404 arms and the wildcard arm only emit a
message. -/
def delayed_call_for_failure (code : RQCStatusCode) (now : Date) :
    Option RQCDelayedCall :=
  if code = RQCStatusCode.http 400 then none
  else if code = RQCStatusCode.http 403 then none
  else if code = RQCStatusCode.http 404 then none
  else if code = RQCStatusCode.connectionError ∨ code = RQCStatusCode.timeout ∨
      code = RQCStatusCode.requestError ∨ code = RQCStatusCode.http 500 ∨
      code = RQCStatusCode.http 502 ∨ code = RQCStatusCode.http 503 ∨
      code = RQCStatusCode.http 504 then
    some { remaining_tries := 10
           failure_reason := code
           last_attempt_at := now }
  else none

/-- The retryable outcomes as the claim enumerates them: HTTP
500/502/503/504 and the three transport-error codes. -/
def retryableOutcome (code : RQCStatusCode) : Prop :=
  code ∈ [RQCStatusCode.http 500, RQCStatusCode.http 502,
    RQCStatusCode.http 503, RQCStatusCode.http 504,
    RQCStatusCode.connectionError, RQCStatusCode.timeout,
    RQCStatusCode.requestError]

instance : DecidablePred retryableOutcome := fun code => by
  unfold retryableOutcome; infer_instance

/-- The write phase of `set_reviewer_opting_status` in `views.py`
(after form validation and the assignment lookup): the journal-scoped
decision record is overwritten via `update_or_create`, and the
per-assignment snapshot queryset — filtered on `sent_to_rqc=False`, the
assignment being incomplete, not declined, accepted, and accepted in the
current year — is updated to the new status.  Returns the assignment
(with its possibly-updated snapshot) and the new decision record. -/
def set_reviewer_opting_status (now : Date) (opting_status : OptingStatus)
    (assignment : ReviewAssignment) :
    ReviewAssignment × OptingDecisionRecord :=
  let decision : OptingDecisionRecord :=
    { opting_status := opting_status, opting_date := now }
  let snapshot : Option OptingSnapshot :=
    match assignment.snapshot, assignment.date_accepted with
    | some snap, some accepted =>
        if snap.sent_to_rqc = false ∧ assignment.is_complete = false ∧
            assignment.date_declined = none ∧ accepted.year = now.year then
          some { snap with
                  opting_status := opting_status
                  decision_record := some decision }
        else some snap
    | some snap, none => some snap
    | none, _ => none
  ({ assignment with snapshot := snapshot }, decision)

/-- Modelled from the spec: the `RQCCall` row is created on the first
successful submission and stores the editor list exactly as sent
(`rqc_calls.py` is not in src). -/
def recordSend (article : Article) : Article :=
  { article with
      call_record := some { editor_assignments := get_editors_info article } }

/-- A new editor assigned to the article after the fact. -/
def addEditorAssignment (article : Article) (ea : EditorAssignment) : Article :=
  { article with
      editorassignment_set := article.editorassignment_set ++ [ea] }

/-- The claim's selection predicate for the review set, written in the
claim's own terms: accepted, or declined after the snapshot was sent —
and in either case a still-existing round or an already-sent snapshot. -/
def spec_review_selected (ra : ReviewAssignment) : Prop :=
  (ra.date_accepted ≠ none ∨ (ra.date_declined ≠ none ∧ snapshotSent ra = true)) ∧
    (ra.review_round ≠ none ∨ snapshotSent ra = true)

instance (ra : ReviewAssignment) : Decidable (spec_review_selected ra) := by
  unfold spec_review_selected; infer_instance

/-- The claim's freeze predicate for the consent snapshot: frozen iff
already sent, or complete, or declined. -/
def claim_frozen (ra : ReviewAssignment) : Prop :=
  snapshotSent ra = true ∨ ra.is_complete = true ∨ ra.date_declined ≠ none

instance (ra : ReviewAssignment) : Decidable (claim_frozen ra) := by
  unfold claim_frozen; infer_instance

/-- `date_accepted__year=utc_now().year`: the assignment was accepted and
its acceptance date lies in the current year. -/
def acceptedThisYear (ra : ReviewAssignment) (now : Date) : Prop :=
  match ra.date_accepted with
  | some d => d.year = now.year
  | none => False

instance (ra : ReviewAssignment) (now : Date) : Decidable (acceptedThisYear ra now) := by
  unfold acceptedThisYear
  rcases ra.date_accepted with _ | d <;> infer_instance

/-- The guard the opting view actually enforces before touching the
snapshot: not sent, not complete, not declined, and accepted in the
current year. -/
def snapshot_update_allowed (ra : ReviewAssignment) (now : Date) : Prop :=
  snapshotSent ra = false ∧ ra.is_complete = false ∧
    ra.date_declined = none ∧ acceptedThisYear ra now

instance (ra : ReviewAssignment) (now : Date) :
    Decidable (snapshot_update_allowed ra now) := by
  unfold snapshot_update_allowed; infer_instance

/-- A sample date. -/
def exDate : Date := ⟨2025, 1⟩

/-- A sample account. -/
def exAccount : Account := ⟨1, ("e@x").data, ("Ann").data, ("Lee").data, none⟩

/-- A sample journal. -/
def exJournal : Journal := ⟨("salty").data⟩

/-- A sample article with a recorded `RQCCall`. -/
def exArticleSent : Article :=
  { pk := 1
    title := ("T").data
    date_submitted := exDate
    correspondence_author := exAccount
    frozenauthor_set := []
    editorassignment_set := []
    decisiondraft_set := []
    reviewassignment_set := []
    call_record := some ⟨[]⟩
    editorial_decision := [] }

/-- A sample article without a recorded `RQCCall`. -/
def exArticleFresh : Article := { exArticleSent with call_record := none }

/-- A sample chief-editor assignment. -/
def exEdAssignment : EditorAssignment := ⟨exAccount, chiefEditorType, exDate⟩

/-- A sample accepted, ongoing review assignment with no consent
snapshot. -/
def exRaBase : ReviewAssignment :=
  { reviewer := exAccount
    date_requested := some exDate
    date_accepted := some ⟨2025, 2⟩
    date_declined := none
    date_due := none
    date_complete := none
    is_complete := false
    review_round := some 1
    form_answers := []
    decision := []
    snapshot := none }

/-- An opt-in snapshot that has not been sent. -/
def exSnapIn : OptingSnapshot := ⟨OptingStatus.optIn, false, none⟩

/-- The sample assignment with an opt-in snapshot. -/
def exRaIn : ReviewAssignment := { exRaBase with snapshot := some exSnapIn }

/-- A frozen-author row for the sample correspondence author. -/
def exFrozen : FrozenAuthor := ⟨1, 0⟩

/-- The sample article extended with the frozen-author row. -/
def exArticleAuthored : Article :=
  { exArticleFresh with frozenauthor_set := [exFrozen] }

/-- A 250,000-character review text. -/
def bigText : Str := List.replicate 250000 'a'

/-- An opted-in review assignment whose single answer is the
250,000-character text. -/
def c1Assignment : ReviewAssignment :=
  { exRaBase with snapshot := some exSnapIn, form_answers := [bigText] }

/-- The article holding the oversized review. -/
def c1Article : Article :=
  { exArticleFresh with reviewassignment_set := [c1Assignment] }

/-- An opt-out snapshot that has not been sent. -/
def c5Snap : OptingSnapshot := ⟨OptingStatus.optOut, false, none⟩

/-- An ongoing assignment, accepted in 2025, carrying the opt-out
snapshot. -/
def c5Assignment : ReviewAssignment :=
  { exRaBase with snapshot := some c5Snap, date_accepted := some ⟨2025, 3⟩ }

/-- A moment in the year after the acceptance of `c5Assignment`. -/
def c5Now : Date := ⟨2026, 0⟩

/-- An ongoing assignment, accepted in the current year (2026), carrying
the opt-out snapshot. -/
def c5wAssignment : ReviewAssignment :=
  { exRaBase with snapshot := some c5Snap, date_accepted := some ⟨2026, 1⟩ }

/-- A chief editor who also authored decision drafts. -/
def chiefAcct : Account := ⟨2, ("chief@x").data, [], [], none⟩

/-- An article whose chief editor is assigned and appears on two decision
drafts. -/
def exC8Article : Article :=
  { exArticleFresh with
      editorassignment_set := [⟨chiefAcct, chiefEditorType, exDate⟩]
      decisiondraft_set := [⟨none, some chiefAcct⟩, ⟨none, some chiefAcct⟩] }

/-- The `editor_type` value of a non-chief (section) editor assignment. -/
def sectionEditorType : Str := ("section-editor").data

/-- Two distinct section editors. -/
def secAcct1 : Account := ⟨3, ("s1@x").data, [], [], none⟩

/-- Two distinct section editors. -/
def secAcct2 : Account := ⟨4, ("s2@x").data, [], [], none⟩

/-- An article with two distinct assigned section editors. -/
def exC7Article : Article :=
  { exArticleFresh with
      editorassignment_set :=
        [⟨secAcct1, sectionEditorType, exDate⟩,
         ⟨secAcct2, sectionEditorType, ⟨2025, 2⟩⟩] }

/-- A single qualifying review assignment for the review-set witness. -/
def c6Ra : ReviewAssignment := exRaBase

/-- The article holding the single qualifying assignment. -/
def c6Article : Article :=
  { exArticleFresh with reviewassignment_set := [c6Ra] }

/-- An article with 21 qualifying review assignments (one more than the
list cap). -/
def c6BigArticle : Article :=
  { exArticleFresh with
      reviewassignment_set :=
        (List.range 21).map
          (fun k => { exRaBase with date_requested := some ⟨2025, k⟩ }) }

/-- The invariant maintained by the accumulation loops of
`get_editors_info`: the `seen` keys are exactly the keys of the
accumulated entries (in insertion order) and are duplicate-free, the
`has_level_one_editor` flag tracks the presence of a level-1 entry, and
every entry carries level 1 or level 3. -/
structure EdInv (st : EdState) : Prop where
  seen_eq : st.seen = st.edassgmt_set.map infoKey
  nodup : st.seen.Nodup
  flag_iff : st.has_level_one_editor = true ↔ ∃ e ∈ st.edassgmt_set, e.level = 1
  levels : ∀ e ∈ st.edassgmt_set, e.level = 1 ∨ e.level = 3

/-- C3: for every article with a recorded `RQCCall`, `get_editors_info`
returns the stored editor list verbatim; hence assembling again after a
successful send — even with a new editor assigned in between — yields the
editor list of the first call unchanged. -/
theorem editor_set_immutable_after_send (a a2 : Article) (r : RQCCallRec)
    (ea : EditorAssignment) (h : a.call_record = some r) :
    get_editors_info a = r.editor_assignments ∧
    get_editors_info (addEditorAssignment (recordSend a2) ea) =
      get_editors_info a2 := by
  constructor
  · unfold get_editors_info
    rw [h]
  · rfl

/-- Witness for C3 at concrete inputs. -/
theorem editor_set_immutable_after_send_witness :
    exArticleSent.call_record = some ⟨[]⟩ ∧
    get_editors_info exArticleSent = ([] : List EditorInfo) ∧
    get_editors_info (addEditorAssignment (recordSend exArticleFresh) exEdAssignment) =
      get_editors_info exArticleFresh :=
  ⟨rfl,
   (editor_set_immutable_after_send exArticleSent exArticleFresh ⟨[]⟩ exEdAssignment rfl).1,
   (editor_set_immutable_after_send exArticleSent exArticleFresh ⟨[]⟩ exEdAssignment rfl).2⟩

/-- C4: the explicit submission view creates a `RQCDelayedCall` with
`remaining_tries = 10` carrying the failure code exactly when the outcome
is retryable — HTTP 500/502/503/504 or one of the three transport-error
codes; 400, 403, 404 and the unknown-error code never create one. -/
theorem delayed_call_iff_retryable (code : RQCStatusCode) (now : Date) :
    delayed_call_for_failure code now =
      if retryableOutcome code then
        some { remaining_tries := 10, failure_reason := code, last_attempt_at := now }
      else none := by
  cases code with
  | http n =>
      unfold delayed_call_for_failure retryableOutcome
      by_cases h4 : n = 400
      · subst h4; simp
      · by_cases h3 : n = 403
        · subst h3; simp
        · by_cases h0 : n = 404
          · subst h0; simp
          · simp only [RQCStatusCode.http.injEq, h4, h3, h0, if_false,
              List.mem_cons, List.not_mem_nil, or_false, reduceCtorEq]
            split_ifs with h5 h6 <;> simp_all
  | connectionError => rfl
  | timeout => rfl
  | requestError => rfl
  | unknownError => rfl

/-- C10: `has_opted_in` is a total boolean check — true exactly when a
per-assignment snapshot exists with the opt-in status, false when the
snapshot is absent or carries any other status. -/
theorem has_opted_in_characterization (ra : ReviewAssignment) :
    (has_opted_in ra = true ↔
      ∃ snap, ra.snapshot = some snap ∧ snap.opting_status = OptingStatus.optIn) ∧
    (ra.snapshot = none → has_opted_in ra = false) ∧
    (∀ snap, ra.snapshot = some snap → snap.opting_status ≠ OptingStatus.optIn →
      has_opted_in ra = false) := by
  unfold has_opted_in
  rcases h : ra.snapshot with _ | snap
  · simp
  · simp only [h, Option.some.injEq, decide_eq_true_eq]
    refine ⟨?_, ?_, ?_⟩
    · constructor
      · intro hs
        exact ⟨snap, rfl, hs⟩
      · rintro ⟨snap2, rfl2, hs⟩
        cases rfl2
        exact hs
    · intro hk
      cases hk
    · intro snap2 hk hne
      cases hk
      simp [hne]

/-- Witness for C10 at concrete inputs. -/
theorem has_opted_in_characterization_witness :
    has_opted_in exRaBase = false ∧ has_opted_in exRaIn = true :=
  ⟨(has_opted_in_characterization exRaBase).2.1 rfl,
   (has_opted_in_characterization exRaIn).1.mpr ⟨exSnapIn, rfl, rfl⟩⟩

/-- C9: assembly is partial at the author step — an article whose
correspondence author has no frozen-author row makes `get_authors_info`
(and hence `fetch_post_data`) fail, and assembly is total whenever such a
row exists. -/
theorem fetch_post_data_partial_at_author_step :
    (∃ a : Article, get_authors_info a = none ∧
      ∀ (j : Journal) (page : Str) (flag : Bool) (u : Option Account),
        fetch_post_data a j page flag u = none) ∧
    (∀ (a : Article) (j : Journal) (page : Str) (flag : Bool) (u : Option Account),
      (∃ fa, fa ∈ a.frozenauthor_set ∧ fa.author = a.correspondence_author.id) →
        (fetch_post_data a j page flag u).isSome = true) := by
  constructor
  · refine ⟨exArticleFresh, rfl, ?_⟩
    intro j page flag u
    unfold fetch_post_data
    rfl
  · rintro a j page flag u ⟨fa, hmem, hfa⟩
    have hfind : (a.frozenauthor_set.find? (fun x => x.author == a.correspondence_author.id)).isSome := by
      rw [List.find?_isSome]
      exact ⟨fa, hmem, by simp [hfa]⟩
    unfold fetch_post_data get_authors_info
    rcases hres : a.frozenauthor_set.find? (fun x => x.author == a.correspondence_author.id) with _ | fa2
    · rw [hres] at hfind
      cases hfind
    · simp only [hres]
      rfl

/-- Witness for C9 at a concrete article carrying the frozen-author row. -/
theorem fetch_post_data_partial_at_author_step_witness :
    (fetch_post_data exArticleAuthored exJournal [] false none).isSome = true :=
  fetch_post_data_partial_at_author_step.2 exArticleAuthored exJournal [] false none
    ⟨exFrozen, by decide, rfl⟩

/-- C5 (amended): the journal-scoped decision record is always
overwritten with the submitted status and the fresh timestamp, and the
per-assignment snapshot is updated exactly under the view's guard — not
sent, not complete, not declined, AND accepted in the current year;
under any other condition the snapshot is returned unchanged. -/
theorem set_opting_overwrites_decision_and_guards_snapshot (now : Date)
    (status : OptingStatus) (ra : ReviewAssignment) :
    (set_reviewer_opting_status now status ra).2 = ⟨status, now⟩ ∧
    (snapshot_update_allowed ra now →
      (set_reviewer_opting_status now status ra).1.snapshot =
        ra.snapshot.map (fun snap =>
          { snap with
              opting_status := status
              decision_record := some ⟨status, now⟩ })) ∧
    (¬ snapshot_update_allowed ra now →
      (set_reviewer_opting_status now status ra).1.snapshot = ra.snapshot) := by
  refine ⟨rfl, ?_, ?_⟩
  · rintro ⟨hsent, hcomp, hdecl, hyear⟩
    unfold set_reviewer_opting_status
    rcases hs : ra.snapshot with _ | snap
    · simp [hs]
    · rcases hacc : ra.date_accepted with _ | accepted
      · unfold acceptedThisYear at hyear
        rw [hacc] at hyear
        cases hyear
      · simp only [snapshotSent, hs] at hsent
        unfold acceptedThisYear at hyear
        rw [hacc] at hyear
        simp only [hs, hacc]
        rw [if_pos ⟨hsent, hcomp, hdecl, hyear⟩]
        rfl
  · intro hno
    unfold set_reviewer_opting_status
    rcases hs : ra.snapshot with _ | snap
    · simp [hs]
    · rcases hacc : ra.date_accepted with _ | accepted
      · simp [hs, hacc]
      · have hguard : ¬ (snap.sent_to_rqc = false ∧ ra.is_complete = false ∧
            ra.date_declined = none ∧ accepted.year = now.year) := by
          intro hC
          apply hno
          refine ⟨?_, hC.2.1, hC.2.2.1, ?_⟩
          · simp only [snapshotSent, hs]
            exact hC.1
          · unfold acceptedThisYear
            rw [hacc]
            exact hC.2.2.2
        simp only [hs, hacc]
        rw [if_neg hguard]

/-- Counterexample to C5 as stated: this assignment is not frozen in the
claim's sense (not sent, not complete, not declined), yet a fresh opt-in
submission leaves its opt-out snapshot untouched, because the view's
filter additionally requires acceptance in the current year. -/
theorem set_opting_claim_counterexample :
    ¬ claim_frozen c5Assignment ∧
    (set_reviewer_opting_status c5Now OptingStatus.optIn c5Assignment).1.snapshot =
      some c5Snap ∧
    c5Snap.opting_status = OptingStatus.optOut := by
  refine ⟨by decide, by decide, rfl⟩

/-- Witness for C5 (amended): with acceptance in the current year the
snapshot is rewritten to the submitted status, and the decision record is
overwritten. -/
theorem set_opting_overwrites_decision_and_guards_snapshot_witness :
    (set_reviewer_opting_status ⟨2026, 2⟩ OptingStatus.optIn c5wAssignment).2 =
      ⟨OptingStatus.optIn, ⟨2026, 2⟩⟩ ∧
    (set_reviewer_opting_status ⟨2026, 2⟩ OptingStatus.optIn c5wAssignment).1.snapshot =
      some ⟨OptingStatus.optIn, false, some ⟨OptingStatus.optIn, ⟨2026, 2⟩⟩⟩ := by
  have h := set_opting_overwrites_decision_and_guards_snapshot ⟨2026, 2⟩
    OptingStatus.optIn c5wAssignment
  refine ⟨h.1, ?_⟩
  rw [h.2.1 (by decide)]
  rfl

/-- C1 (code bug): for an opted-in reviewer whose review text has 250,000
characters, the assembled entry carries only the first 2,000 characters —
the source truncates the multi-line review text with
`MAX_SINGLE_LINE_STRING_LENGTH` although its own comments (and the unused
constant `MAX_MULTI_LINE_STRING_LENGTH`) prescribe 200,000. -/
theorem review_text_truncated_by_single_line_limit :
    has_opted_in c1Assignment = true ∧
    joinAnswers c1Assignment.form_answers = List.replicate 250000 'a' ∧
    get_reviews_info c1Article exJournal = [make_review_data 1 exJournal c1Assignment] ∧
    (make_review_data 1 exJournal c1Assignment).text = List.replicate 2000 'a' ∧
    (make_review_data 1 exJournal c1Assignment).text.length = MAX_SINGLE_LINE_STRING_LENGTH ∧
    (make_review_data 1 exJournal c1Assignment).text.length ≠ MAX_MULTI_LINE_STRING_LENGTH := by
  have hjoin : ∀ s : Str, joinAnswers [s] = s := by
    intro s
    simp [joinAnswers, List.intercalate]
  have hanswers : c1Assignment.form_answers = [bigText] := rfl
  have htext : (make_review_data 1 exJournal c1Assignment).text = List.replicate 2000 'a' := by
    have h0 : (make_review_data 1 exJournal c1Assignment).text =
        (joinAnswers [bigText]).take MAX_SINGLE_LINE_STRING_LENGTH := rfl
    rw [h0, hjoin bigText]
    show (List.replicate 250000 'a').take 2000 = List.replicate 2000 'a'
    rw [List.take_replicate]
    norm_num
  refine ⟨rfl, ?_, rfl, htext, ?_, ?_⟩
  · rw [hanswers, hjoin bigText]
    rfl
  · rw [htext, List.length_replicate]
    rfl
  · rw [htext, List.length_replicate]
    decide

/-- The loop invariant holds at the initial state. -/
theorem edInv_init : EdInv ⟨[], [], false⟩ := by
  refine ⟨rfl, List.nodup_nil, ?_, ?_⟩ <;> simp

/-- `addIfUnseen` preserves the invariant, provided the new entry's level
is 1 or 3 and a level-1 entry may only be added while the flag is set. -/
theorem edInv_addIfUnseen {st : EdState} (h : EdInv st) (info : EditorInfo)
    (hlv : info.level = 1 ∨ info.level = 3)
    (hflag : info.level = 1 → st.has_level_one_editor = true) :
    EdInv (addIfUnseen st info) := by
  unfold addIfUnseen
  split_ifs with hmem
  · exact h
  · refine ⟨?_, ?_, ?_, ?_⟩
    · simp [h.seen_eq]
    · rw [List.nodup_append]
      refine ⟨h.nodup, List.nodup_singleton _, fun x hx hx2 => ?_⟩
      rw [List.mem_singleton] at hx2
      subst hx2
      exact hmem hx
    · show st.has_level_one_editor = true ↔ _
      rcases hlv with h1 | h3
      · rw [hflag h1]
        simp only [true_iff]
        exact ⟨info, by simp, h1⟩
      · rw [h.flag_iff]
        constructor
        · rintro ⟨e, he, hl⟩
          exact ⟨e, by simp [he], hl⟩
        · rintro ⟨e, he, hl⟩
          rcases List.mem_append.mp he with he2 | he2
          · exact ⟨e, he2, hl⟩
          · rw [List.mem_singleton] at he2
            subst he2
            exact absurd (h3.symm.trans hl) (by decide)
    · intro e he
      rcases List.mem_append.mp he with he2 | he2
      · exact h.levels e he2
      · rw [List.mem_singleton] at he2
        subst he2
        exact hlv

/-- Appending a level-1 entry and then forcing the flag preserves the
invariant. -/
theorem edInv_addLevelOne {st : EdState} (h : EdInv st) (info : EditorInfo)
    (hlv : info.level = 1) :
    EdInv { addIfUnseen st info with has_level_one_editor := true } := by
  unfold addIfUnseen
  split_ifs with hmem
  · refine ⟨h.seen_eq, h.nodup, ?_, h.levels⟩
    show (true = true) ↔ _
    simp only [true_iff]
    rw [h.seen_eq] at hmem
    obtain ⟨e, he, hkey⟩ := List.mem_map.mp hmem
    refine ⟨e, he, ?_⟩
    have h2 : e.level = info.level := congrArg Prod.snd hkey
    rw [h2, hlv]
  · refine ⟨?_, ?_, ?_, ?_⟩
    · simp [h.seen_eq]
    · rw [List.nodup_append]
      refine ⟨h.nodup, List.nodup_singleton _, fun x hx hx2 => ?_⟩
      rw [List.mem_singleton] at hx2
      subst hx2
      exact hmem hx
    · show (true = true) ↔ _
      simp only [true_iff]
      exact ⟨info, by simp, hlv⟩
    · intro e he
      rcases List.mem_append.mp he with he2 | he2
      · exact h.levels e he2
      · rw [List.mem_singleton] at he2
        subst he2
        exact Or.inl hlv

/-- One editor-assignment iteration preserves the invariant. -/
theorem edInv_editorAssignmentStep {st : EdState} (h : EdInv st)
    (ea : EditorAssignment) : EdInv (editorAssignmentStep st ea) := by
  unfold editorAssignmentStep
  split_ifs with htype
  · refine edInv_addIfUnseen h _ (Or.inr rfl) ?_
    intro h1
    simp [get_editor_info] at h1
  · exact edInv_addLevelOne h _ rfl

/-- The section-editor half of a draft iteration preserves the invariant. -/
theorem edInv_addSectionDraft {st : EdState} (h : EdInv st) (info : EditorInfo)
    (hlv : info.level = 1) : EdInv (addSectionDraft st info) := by
  unfold addSectionDraft
  split_ifs with hmem
  · exact h
  · refine ⟨?_, ?_, ?_, ?_⟩
    · simp [h.seen_eq]
    · rw [List.nodup_append]
      refine ⟨h.nodup, List.nodup_singleton _, fun x hx hx2 => ?_⟩
      rw [List.mem_singleton] at hx2
      subst hx2
      exact hmem hx
    · show (true = true) ↔ _
      simp only [true_iff]
      exact ⟨info, by simp, hlv⟩
    · intro e he
      rcases List.mem_append.mp he with he2 | he2
      · exact h.levels e he2
      · rw [List.mem_singleton] at he2
        subst he2
        exact Or.inl hlv

/-- One decision-draft iteration preserves the invariant. -/
theorem edInv_decisionDraftStep {st : EdState} (h : EdInv st)
    (d : DecisionDraft) : EdInv (decisionDraftStep st d) := by
  unfold decisionDraftStep
  rcases hse : d.section_editor with _ | se <;> rcases hed : d.editor with _ | ed <;>
    simp only [hse, hed]
  · exact h
  · refine edInv_addIfUnseen h _ (Or.inr rfl) ?_
    intro h1
    simp [get_editor_info] at h1
  · exact edInv_addSectionDraft h _ rfl
  · refine edInv_addIfUnseen (edInv_addSectionDraft h _ rfl) _ (Or.inr rfl) ?_
    intro h1
    simp [get_editor_info] at h1

/-- The invariant is preserved by the whole editor-assignment loop. -/
theorem edInv_foldl_assignments :
    ∀ (l : List EditorAssignment) (st : EdState), EdInv st →
      EdInv (l.foldl editorAssignmentStep st)
  | [], _, h => h
  | ea :: rest, _, h =>
      edInv_foldl_assignments rest _ (edInv_editorAssignmentStep h ea)

/-- The invariant is preserved by the whole decision-draft loop. -/
theorem edInv_foldl_drafts :
    ∀ (l : List DecisionDraft) (st : EdState), EdInv st →
      EdInv (l.foldl decisionDraftStep st)
  | [], _, h => h
  | d :: rest, _, h =>
      edInv_foldl_drafts rest _ (edInv_decisionDraftStep h d)

/-- The state reached after both loops satisfies the invariant. -/
theorem edInv_computed_state (a : Article) : EdInv (computed_editor_state a) := by
  unfold computed_editor_state
  exact edInv_foldl_drafts _ _ (edInv_foldl_assignments _ _ edInv_init)

/-- After the promotion step, the computed editor list has duplicate-free
(email, level) keys, all levels in {1, 3}, and — when nonempty — at least
one level-1 entry. -/
theorem computed_edassgmt_props (a : Article) :
    ((computed_edassgmt_set a).map infoKey).Nodup ∧
    (∀ e ∈ computed_edassgmt_set a, e.level = 1 ∨ e.level = 3) ∧
    (computed_edassgmt_set a ≠ [] → ∃ e ∈ computed_edassgmt_set a, e.level = 1) := by
  have h := edInv_computed_state a
  have hnodup : ((computed_editor_state a).edassgmt_set.map infoKey).Nodup := by
    rw [← h.seen_eq]
    exact h.nodup
  unfold computed_edassgmt_set
  split_ifs with hc
  · obtain ⟨hflag, hne⟩ := hc
    have hno1 : ∀ e ∈ (computed_editor_state a).edassgmt_set, e.level ≠ 1 := by
      intro e he h1
      have h2 := h.flag_iff.mpr ⟨e, he, h1⟩
      rw [hflag] at h2
      cases h2
    rcases hset : (computed_editor_state a).edassgmt_set with _ | ⟨e0, rest⟩
    · exact absurd hset hne
    · rw [hset] at hnodup hno1
      have hlv : ∀ e ∈ e0 :: rest, e.level = 1 ∨ e.level = 3 := hset ▸ h.levels
      refine ⟨?_, ?_, fun _ => ⟨{ e0 with level := 1 }, by simp [promoteFirst], rfl⟩⟩
      · simp only [promoteFirst, List.map_cons]
        rw [List.map_cons, List.nodup_cons] at hnodup
        rw [List.nodup_cons]
        refine ⟨?_, hnodup.2⟩
        intro hmem
        obtain ⟨e, he, hkey⟩ := List.mem_map.mp hmem
        have h2 : e.level = 1 := congrArg Prod.snd hkey
        exact hno1 e (List.mem_cons_of_mem _ he) h2
      · intro e he
        simp only [promoteFirst, List.mem_cons] at he
        rcases he with rfl | he
        · exact Or.inl rfl
        · exact hlv e (List.mem_cons_of_mem _ he)
  · refine ⟨hnodup, h.levels, ?_⟩
    intro hne
    apply h.flag_iff.mp
    rcases hb : (computed_editor_state a).has_level_one_editor
    · exact absurd ⟨hb, hne⟩ hc
    · rfl

/-- In the level-sorted, truncated editor list, a level-1 entry survives
whenever the computed list contains one and all levels are 1 or 3. -/
theorem exists_level_one_in_sorted_take (L : List EditorInfo)
    (hx : ∃ e ∈ L, e.level = 1)
    (hlv : ∀ e ∈ L, e.level = 1 ∨ e.level = 3) :
    ∃ e ∈ (List.insertionSort edLevelLe L).take MAX_LIST_LENGTH, e.level = 1 := by
  have hperm := List.perm_insertionSort edLevelLe L
  have hSorted : (List.insertionSort edLevelLe L).Pairwise edLevelLe :=
    List.sorted_insertionSort edLevelLe L
  rcases hs : List.insertionSort edLevelLe L with _ | ⟨h0, t⟩
  · rw [hs] at hperm
    have hnil : L = [] := hperm.symm.eq_nil
    obtain ⟨e, he, _⟩ := hx
    rw [hnil] at he
    cases he
  · rw [hs] at hperm hSorted
    obtain ⟨e, heL, hel⟩ := hx
    have heS : e ∈ h0 :: t := hperm.mem_iff.mpr heL
    have hh : h0.level = 1 := by
      rcases List.mem_cons.mp heS with heq | ht
      · exact heq ▸ hel
      · have hle := (List.pairwise_cons.mp hSorted).1 e ht
        have h0mem : h0 ∈ L := hperm.mem_iff.mp (List.mem_cons_self h0 t)
        unfold edLevelLe at hle
        rcases hlv h0 h0mem with h1 | h3
        · exact h1
        · rw [h3, hel] at hle
          omega
    refine ⟨h0, ?_, hh⟩
    show h0 ∈ (h0 :: t).take MAX_LIST_LENGTH
    show h0 ∈ h0 :: t.take 19
    exact List.mem_cons_self _ _

/-- C7 (amended): for every article without a `RQCCall` record whose
computed editor list is nonempty, the returned list contains AT LEAST one
level-1 entry (the promotion rule guarantees existence, not
uniqueness). -/
theorem editor_set_has_level_one (a : Article) (h1 : a.call_record = none)
    (h2 : get_editors_info a ≠ []) :
    ∃ e ∈ get_editors_info a, e.level = 1 := by
  unfold get_editors_info at h2 ⊢
  simp only [h1] at h2 ⊢
  apply exists_level_one_in_sorted_take
  · apply (computed_edassgmt_props a).2.2
    intro h0
    rw [h0] at h2
    exact h2 rfl
  · exact (computed_edassgmt_props a).2.1

/-- Counterexample to C7 as stated: with two distinct assigned section
editors the returned editor list contains two level-1 entries, not
exactly one. -/
theorem editor_set_level_one_not_unique :
    exC7Article.call_record = none ∧
    get_editors_info exC7Article ≠ [] ∧
    (get_editors_info exC7Article).countP (fun e => e.level == 1) = 2 ∧
    ¬ ((get_editors_info exC7Article).countP (fun e => e.level == 1) = 1) := by
  exact ⟨rfl, by decide, by decide, by decide⟩

/-- Witness for C7 (amended) at the two-section-editor article. -/
theorem editor_set_has_level_one_witness :
    exC7Article.call_record = none ∧
    get_editors_info exC7Article ≠ [] ∧
    ∃ e ∈ get_editors_info exC7Article, e.level = 1 :=
  ⟨rfl, by decide, editor_set_has_level_one exC7Article rfl (by decide)⟩

/-- C8: for every article without a `RQCCall` record, the returned editor
list never contains two entries with the same (email, level) pair. -/
theorem editor_set_key_nodup (a : Article) (h : a.call_record = none) :
    ((get_editors_info a).map infoKey).Nodup := by
  unfold get_editors_info
  simp only [h]
  have hn := (computed_edassgmt_props a).1
  have hperm :
      List.Perm
        ((List.insertionSort edLevelLe (computed_edassgmt_set a)).map infoKey)
        ((computed_edassgmt_set a).map infoKey) :=
    (List.perm_insertionSort edLevelLe (computed_edassgmt_set a)).map infoKey
  have h2 :
      ((List.insertionSort edLevelLe (computed_edassgmt_set a)).map infoKey).Nodup :=
    hperm.nodup_iff.mpr hn
  rw [List.map_take]
  exact (List.take_sublist _ _).nodup h2

/-- Witness for C8: the chief editor who is assigned and authors two
decision drafts yields duplicate-free keys and appears exactly once. -/
theorem editor_set_key_nodup_witness :
    exC8Article.call_record = none ∧
    ((get_editors_info exC8Article).map infoKey).Nodup ∧
    (get_editors_info exC8Article).countP (fun e => e.email == chiefAcct.email) = 1 :=
  ⟨rfl, editor_set_key_nodup exC8Article rfl, by decide⟩

/-- The queryset filter of `get_reviews_info` agrees with the claim's
selection predicate. -/
theorem reviewAssignmentQualifies_iff (ra : ReviewAssignment) :
    reviewAssignmentQualifies ra = true ↔ spec_review_selected ra := by
  unfold reviewAssignmentQualifies spec_review_selected
  simp only [Bool.and_eq_true, Bool.or_eq_true, Option.isSome_iff_ne_none]
  tauto

/-- The modelled date conversion is the identity on nullable dates. -/
theorem convertOptDate_eq (o : Option Date) : convertOptDate o = o := by
  cases o <;> rfl

/-- The `invited` field of an assembled entry is the assignment's
invitation timestamp. -/
theorem make_review_data_invited (n : Nat) (j : Journal) (ra : ReviewAssignment) :
    (make_review_data n j ra).invited = ra.date_requested :=
  convertOptDate_eq _

/-- The `visible_id` field of an assembled entry is the running number. -/
theorem make_review_data_visible_id (n : Nat) (j : Journal) (ra : ReviewAssignment) :
    (make_review_data n j ra).visible_id = (Nat.repr n).data := rfl

/-- Every entry of the built review set is `make_review_data` applied to
a member of the input list. -/
theorem mem_build_review_set {j : Journal} {e : ReviewData} :
    ∀ {n : Nat} {l : List ReviewAssignment}, e ∈ build_review_set j n l →
      ∃ k ra, ra ∈ l ∧ e = make_review_data k j ra := by
  intro n l
  induction l generalizing n with
  | nil =>
      intro h
      exact absurd h (List.not_mem_nil e)
  | cons ra rest ih =>
      intro h
      rcases List.mem_cons.mp h with h1 | h1
      · exact ⟨n, ra, List.mem_cons_self _ _, h1⟩
      · obtain ⟨k, ra2, hm, he⟩ := ih h1
        exact ⟨k, ra2, List.mem_cons_of_mem _ hm, he⟩

/-- The built review set inherits pairwise relations from the input
assignments. -/
theorem pairwise_build_review_set {j : Journal}
    {R : ReviewAssignment → ReviewAssignment → Prop}
    {P : ReviewData → ReviewData → Prop}
    (hmk : ∀ (k1 k2 : Nat) (ra1 ra2 : ReviewAssignment),
      R ra1 ra2 → P (make_review_data k1 j ra1) (make_review_data k2 j ra2)) :
    ∀ {n : Nat} {l : List ReviewAssignment}, l.Pairwise R →
      (build_review_set j n l).Pairwise P := by
  intro n l
  induction l generalizing n with
  | nil =>
      intro _
      exact List.Pairwise.nil
  | cons ra rest ih =>
      intro hp
      rw [List.pairwise_cons] at hp
      show ((make_review_data n j ra) :: build_review_set j (n + 1) rest).Pairwise P
      rw [List.pairwise_cons]
      refine ⟨?_, ih hp.2⟩
      intro e he
      obtain ⟨k, ra2, hm, rfl⟩ := mem_build_review_set he
      exact hmk n k ra ra2 (hp.1 ra2 hm)

/-- The built review set has one entry per input assignment. -/
theorem build_review_set_length (j : Journal) :
    ∀ (n : Nat) (l : List ReviewAssignment),
      (build_review_set j n l).length = l.length
  | _, [] => rfl
  | n, _ :: rest => by
      show (build_review_set j (n + 1) rest).length + 1 = _
      rw [build_review_set_length j (n + 1) rest]
      rfl

/-- The i-th entry of the built review set is `make_review_data` at
running number `n + i` on the i-th assignment. -/
theorem build_review_set_getElem (j : Journal) :
    ∀ (n : Nat) (l : List ReviewAssignment) (i : Nat)
      (h1 : i < (build_review_set j n l).length) (h2 : i < l.length),
      (build_review_set j n l).get ⟨i, h1⟩ =
        make_review_data (n + i) j (l.get ⟨i, h2⟩) := by
  intro n l
  induction l generalizing n with
  | nil =>
      intro i h1 h2
      exact absurd h2 (by simp)
  | cons ra rest ih =>
      intro i h1 h2
      cases i with
      | zero => rfl
      | succ i2 =>
          show (build_review_set j (n + 1) rest).get ⟨i2, _⟩ = _
          rw [ih (n + 1) i2 (by
            have := h1
            simp only [build_review_set, List.length_cons] at this
            omega) (by
            simp only [List.length_cons] at h2
            omega)]
          show make_review_data (n + 1 + i2) j _ = make_review_data (n + (i2 + 1)) j _
          rw [show n + 1 + i2 = n + (i2 + 1) by omega]
          rfl

/-- C6 (amended): the review set is built from exactly those review
assignments satisfying the claim's selection predicate, ordered by
invitation timestamp ascending with 1-based visible sequence numbers —
but truncated to the first `MAX_LIST_LENGTH` entries. -/
theorem review_set_selection_and_order (a : Article) (j : Journal) :
    (∀ ra : ReviewAssignment, ra ∈ selected_review_assignments a ↔
      ra ∈ a.reviewassignment_set ∧ spec_review_selected ra) ∧
    (get_reviews_info a j).length =
      min MAX_LIST_LENGTH (selected_review_assignments a).length ∧
    List.Pairwise
      (fun e1 e2 => ∀ d1 d2, e1.invited = some d1 → e2.invited = some d2 →
        dateLeP d1 d2)
      (get_reviews_info a j) ∧
    (∀ (i : Nat) (h : i < (get_reviews_info a j).length),
      ((get_reviews_info a j).get ⟨i, h⟩).visible_id = (Nat.repr (i + 1)).data) := by
  refine ⟨?_, ?_, ?_, ?_⟩
  · intro ra
    unfold selected_review_assignments
    rw [(List.perm_insertionSort raRequestedLe _).mem_iff, List.mem_filter]
    exact and_congr_right fun _ => reviewAssignmentQualifies_iff ra
  · unfold get_reviews_info
    rw [List.length_take, build_review_set_length]
  · unfold get_reviews_info
    apply List.Pairwise.sublist (List.take_sublist _ _)
    apply pairwise_build_review_set (R := raRequestedLe)
    · intro k1 k2 ra1 ra2 hR d1 d2 h1 h2
      rw [make_review_data_invited] at h1 h2
      unfold raRequestedLe at hR
      rw [h1, h2] at hR
      exact hR
    · exact List.sorted_insertionSort raRequestedLe _
  · intro i h
    unfold get_reviews_info at h ⊢
    have hlen : i < (build_review_set j 1 (selected_review_assignments a)).length := by
      rw [List.length_take] at h
      omega
    have hlen2 : i < (selected_review_assignments a).length := by
      rw [build_review_set_length] at hlen
      exact hlen
    have hget :
        (List.take MAX_LIST_LENGTH
          (build_review_set j 1 (selected_review_assignments a))).get ⟨i, h⟩ =
        (build_review_set j 1 (selected_review_assignments a)).get ⟨i, hlen⟩ := by
      simp [List.get_eq_getElem, List.getElem_take]
    rw [hget, build_review_set_getElem j 1 _ i hlen hlen2, make_review_data_visible_id,
      Nat.add_comm]

/-- Counterexample to C6 as stated: with 21 qualifying review
assignments the assembled review set has only 20 entries, so it does not
contain an entry for every qualifying assignment. -/
theorem review_set_truncation_counterexample :
    (c6BigArticle.reviewassignment_set.filter reviewAssignmentQualifies).length = 21 ∧
    (get_reviews_info c6BigArticle exJournal).length = 20 ∧
    ¬ ((get_reviews_info c6BigArticle exJournal).length =
      (c6BigArticle.reviewassignment_set.filter reviewAssignmentQualifies).length) := by
  exact ⟨by decide, by decide, by decide⟩

/-- Witness for C6 (amended) at a one-assignment article. -/
theorem review_set_selection_and_order_witness :
    (c6Ra ∈ selected_review_assignments c6Article ↔
      c6Ra ∈ c6Article.reviewassignment_set ∧ spec_review_selected c6Ra) ∧
    ((get_reviews_info c6Article exJournal).get ⟨0, by decide⟩).visible_id =
      (Nat.repr 1).data :=
  ⟨(review_set_selection_and_order c6Article exJournal).1 c6Ra,
   (review_set_selection_and_order c6Article exJournal).2.2.2 0 (by decide)⟩

/-- C2: an assembled review-set entry always stems from a stored review
assignment; when its reviewer has not opted in, the entry has empty
review text, blank names, no ORCID, and a pseudonymous address on the
fixed placeholder domain (hence distinct from any real address outside
that domain); when the reviewer has opted in, the real email, names and
review text appear (up to the single-line truncation). -/
theorem reviewer_consent_anonymization (a : Article) (j : Journal) (n : Nat)
    (ra : ReviewAssignment) :
    (∀ e ∈ get_reviews_info a j, ∃ k ra2, ra2 ∈ a.reviewassignment_set ∧
      e = make_review_data k j ra2) ∧
    (has_opted_in ra = false →
      (make_review_data n j ra).text = [] ∧
      (make_review_data n j ra).reviewer.firstname = [] ∧
      (make_review_data n j ra).reviewer.lastname = [] ∧
      (make_review_data n j ra).reviewer.orcid_id = none ∧
      RQC_PSEUDO_DOMAIN <:+ (make_review_data n j ra).reviewer.email ∧
      (¬ RQC_PSEUDO_DOMAIN <:+ ra.reviewer.email →
        (make_review_data n j ra).reviewer.email ≠ ra.reviewer.email)) ∧
    (has_opted_in ra = true →
      (make_review_data n j ra).reviewer.email =
        ra.reviewer.email.take MAX_SINGLE_LINE_STRING_LENGTH ∧
      (ra.reviewer.email.length ≤ MAX_SINGLE_LINE_STRING_LENGTH →
        (make_review_data n j ra).reviewer.email = ra.reviewer.email) ∧
      (ra.reviewer.first_name.length ≤ MAX_SINGLE_LINE_STRING_LENGTH →
        (make_review_data n j ra).reviewer.firstname = ra.reviewer.first_name) ∧
      (ra.reviewer.last_name.length ≤ MAX_SINGLE_LINE_STRING_LENGTH →
        (make_review_data n j ra).reviewer.lastname = ra.reviewer.last_name) ∧
      ((joinAnswers ra.form_answers).length ≤ MAX_SINGLE_LINE_STRING_LENGTH →
        (make_review_data n j ra).text = joinAnswers ra.form_answers)) := by
  refine ⟨?_, ?_, ?_⟩
  · intro e he
    unfold get_reviews_info at he
    have he2 : e ∈ build_review_set j 1 (selected_review_assignments a) :=
      (List.take_sublist _ _).subset he
    obtain ⟨k, ra2, hm, hk⟩ := mem_build_review_set he2
    refine ⟨k, ra2, ?_, hk⟩
    unfold selected_review_assignments at hm
    have hm2 := (List.perm_insertionSort raRequestedLe _).mem_iff.mp hm
    exact (List.mem_filter.mp hm2).1
  · intro hno
    have hrev : (make_review_data n j ra).reviewer =
        get_reviewer_info ra.reviewer false j := by
      show get_reviewer_info ra.reviewer (has_opted_in ra) j = _
      rw [hno]
    have htext : (make_review_data n j ra).text = [] := by
      show (if has_opted_in ra then _ else []) = []
      rw [hno]
      rfl
    rw [hrev]
    refine ⟨htext, rfl, rfl, rfl, ?_, ?_⟩
    · show RQC_PSEUDO_DOMAIN <:+ create_pseudo_address ra.reviewer.email j.salt
      unfold create_pseudo_address
      exact List.suffix_append _ _
    · intro hreal heq
      apply hreal
      rw [← heq]
      show RQC_PSEUDO_DOMAIN <:+ create_pseudo_address ra.reviewer.email j.salt
      unfold create_pseudo_address
      exact List.suffix_append _ _
  · intro hyes
    have hrev : (make_review_data n j ra).reviewer =
        get_reviewer_info ra.reviewer true j := by
      show get_reviewer_info ra.reviewer (has_opted_in ra) j = _
      rw [hyes]
    have htext : (make_review_data n j ra).text =
        (joinAnswers ra.form_answers).take MAX_SINGLE_LINE_STRING_LENGTH := by
      show (if has_opted_in ra then _ else []) = _
      rw [hyes]
      rfl
    rw [hrev, htext]
    unfold get_reviewer_info
    rw [if_pos rfl]
    refine ⟨rfl, ?_, ?_, ?_, ?_⟩
    · intro hle
      exact List.take_of_length_le hle
    · intro hle
      show (if ra.reviewer.first_name.isEmpty then [] else _) = _
      rcases hfn : ra.reviewer.first_name with _ | ⟨c, cs⟩
      · rfl
      · rw [if_neg (by simp)]
        rw [← hfn] at *
        exact List.take_of_length_le hle
    · intro hle
      show (if ra.reviewer.last_name.isEmpty then [] else _) = _
      rcases hfn : ra.reviewer.last_name with _ | ⟨c, cs⟩
      · rfl
      · rw [if_neg (by simp)]
        rw [← hfn] at *
        exact List.take_of_length_le hle
    · intro hle
      exact List.take_of_length_le hle

/-- Witness for C2 at concrete opted-out and opted-in assignments. -/
theorem reviewer_consent_anonymization_witness :
    (make_review_data 1 exJournal exRaBase).text = [] ∧
    RQC_PSEUDO_DOMAIN <:+ (make_review_data 1 exJournal exRaBase).reviewer.email ∧
    (make_review_data 1 exJournal exRaBase).reviewer.email ≠ exRaBase.reviewer.email ∧
    (make_review_data 1 exJournal exRaIn).reviewer.email = exRaIn.reviewer.email ∧
    (make_review_data 1 exJournal exRaIn).reviewer.firstname = exRaIn.reviewer.first_name := by
  have hno := (reviewer_consent_anonymization exArticleFresh exJournal 1 exRaBase).2.1 rfl
  have hyes := (reviewer_consent_anonymization exArticleFresh exJournal 1 exRaIn).2.2 rfl
  exact ⟨hno.1, hno.2.2.2.2.1, hno.2.2.2.2.2 (by decide), hyes.2.1 (by decide),
    hyes.2.2.1 (by decide)⟩
